import Mathlib

/-!
Verification of the Fluent Bit output-module core of plaso
(`plaso/output/shared_fluentbit.py`, `plaso/output/fluentbit.py`,
`plaso/output/fluentbit_ts.py`).

The Python code is shallowly embedded: Python dictionaries become
insertion-ordered association lists, attribute values become the inductive
type `Value`, the HTTP transport (`requests.post`, external to the
repository) is a parameter of type `HttpResult` describing the outcome of
the one POST a flush performs, and the two external collaborators used by
field resolution — the per-field formatting helper
(`SharedOpenSearchFieldFormattingHelper.GetFormattedField`, not part of the
sources under study) and the dfVFS path-specification serializer
(`JsonPathSpecSerializer.WriteSerialized`) — are parameters `format` and
`serialize`.  Python stdlib `bytes.decode` with the `replace` error handler
is the parameter `decode`.  A raised Python exception is modelled by
`Except.error` carrying the exception text.
-/

namespace FluentBitModel

/-- Embedding of the Python attribute values the output module inspects:
strings, byte strings, integers, `None`, instances of
`AttributeContainerIdentifier` and of dfdatetime `DateTimeValues`, lists,
and opaque dfVFS path specifications (indexed by a tag). -/
inductive Value where
  | vNone : Value
  | vStr : String → Value
  | vBytes : List Nat → Value
  | vInt : Int → Value
  | vIdentifier : Value
  | vDateTime : Value
  | vList : List Value → Value
  | vPathSpec : Nat → Value

/-- A field document: the Python `dict[str, object]`, as an
insertion-ordered association list with distinct keys. -/
abbrev Doc := List (String × Value)

/-- Python dictionary assignment `d[k] = v`: if the key is present its
value is updated in place (the key keeps its position), otherwise the pair
is appended at the end, which is CPython insertion order. -/
def dictInsert {α : Type} (k : String) (v : α) : List (String × α) → List (String × α)
  | [] => [(k, v)]
  | (k2, v2) :: rest => if k2 = k then (k2, v) :: rest else (k2, v2) :: dictInsert k v rest

/-- Python dictionary lookup `d.get(k, None)`. -/
def dictLookup {α : Type} (k : String) : List (String × α) → Option α
  | [] => none
  | (k2, v2) :: rest => if k2 = k then some v2 else dictLookup k rest

/-- Python membership test `k in d`. -/
def containsKey {α : Type} (k : String) : List (String × α) → Bool
  | [] => false
  | (k2, _) :: rest => k2 = k || containsKey k rest

/-- Python `dict(pairs)`: later pairs with an equal key override earlier
ones, the first occurrence fixes the position. -/
def pyDict {α : Type} (pairs : List (String × α)) : List (String × α) :=
  pairs.foldl (fun d p => dictInsert p.1 p.2 d) []

/-- Severity of a record sent to `plaso.output.logger`. -/
inductive LogLevel where
  | debug : LogLevel
  | warning : LogLevel
  | info : LogLevel
deriving DecidableEq, Repr

/-- One record sent to `plaso.output.logger`. -/
structure LogEntry where
  level : LogLevel
  message : String
deriving DecidableEq, Repr

/-- Outcome of the external `requests.post` call performed by
`_FlushEvents`: either an HTTP response with a status code and body text,
or a raised `requests.exceptions.RequestException` with a message. -/
inductive HttpResult where
  | response (status_code : Nat) (text : String) : HttpResult
  | requestException (message : String) : HttpResult
deriving DecidableEq, Repr

/-- One HTTP POST issued by `_FlushEvents`: the target URL and the JSON
array of buffered field documents sent as the payload. -/
structure PostCall where
  url : String
  payload : List Doc

/-- Python truthiness of an optional string (`if self._index_name:`,
`if self._url_prefix:`): `None` and the empty string are falsy. -/
def truthyStr : Option String → Bool
  | none => false
  | some s => !s.isEmpty

/-- The mutable state of a `SharedFluentBitOutputModule` instance.
The source `__init__` sets `_host`, `_port` to `None`; the CLI arguments
helper (`plaso/cli/helpers/fluentbit_output.py`) always calls
`SetServerInformation` (defaults `localhost`, 9880) before any write, and
the spec fixes the configuration before the first write, so the model
carries `host` and `port` as plain values initialized to those CLI
defaults.  `field_names` is the list object the instance observes (see
`FBWorld` below for the cross-instance aliasing of the class-level default
list). -/
structure SinkState where
  custom_fields : List (String × String)
  event_documents : List Doc
  field_names : List String
  flush_interval : Nat
  host : String
  port : Nat
  urlPrefix : Option String
  index_name : Option String
  number_of_buffered_events : Nat

/-- The class attribute `_DEFAULT_FIELD_NAMES` of
`SharedFluentBitOutputModule`. -/
def DEFAULT_FIELD_NAMES : List String :=
  ["datetime", "display_name", "message", "source_long", "source_short",
   "tag", "timestamp", "timestamp_desc"]

/-- State of a freshly constructed and CLI-configured sink
(`SharedFluentBitOutputModule.__init__`, with `host`/`port` at the CLI
defaults, see `SinkState`). -/
def initState : SinkState :=
  { custom_fields := []
    event_documents := []
    field_names := DEFAULT_FIELD_NAMES
    flush_interval := 1000
    host := "localhost"
    port := 9880
    urlPrefix := none
    index_name := none
    number_of_buffered_events := 0 }

/-- Embedding of `_SanitizeField`: a `bytes` value is decoded as UTF-8
with replacement of invalid sequences (the stdlib decoder is the
parameter `decode`) and a warning is logged; every other value is returned
unchanged.  The claims under study concern the returned value, so the log
side effect is not threaded here. -/
def _SanitizeField (decode : List Nat → String) (data_type : String)
    (attribute_name : String) (field : Value) : Value :=
  match field with
  | .vBytes b => .vStr (decode b)
  | f => f

/-- Discriminator for the `isinstance(field, bytes)` test of
`_SanitizeField`. -/
def isBytesValue : Value → Bool
  | .vBytes _ => true
  | _ => false

/-- Target URL built by `_FlushEvents`:
`http://{host}:{port}` and, when the URL prefix is truthy,
`http://{host}:{port}/{url_prefix}`. -/
def buildURL (st : SinkState) : String :=
  let url := s!"http://{st.host}:{st.port}"
  if truthyStr st.urlPrefix then url ++ "/" ++ st.urlPrefix.getD "" else url

/-- Embedding of `_FlushEvents`.  An empty buffer returns immediately with
no POST.  Otherwise one POST of the whole buffer is issued to the built
URL; status 200 or 201 logs a debug record, any other status or a raised
`RequestException` logs a warning; on every outcome the buffer and the
buffered-event counter are reset.  The outcome of the external
`requests.post` is the parameter `resp`; the returned `Option PostCall`
records the POST issued (at most one, never retried) and the log list the
records emitted. -/
def FlushEvents (st : SinkState) (resp : HttpResult) :
    SinkState × Option PostCall × List LogEntry :=
  if st.event_documents.isEmpty then (st, none, [])
  else
    let url := buildURL st
    let logs :=
      match resp with
      | .response status_code text =>
          if ¬(status_code = 200 ∨ status_code = 201) then
            [⟨.warning, s!"Unable to send events to Fluent Bit. Status code: {status_code}, Response: {text}"⟩]
          else
            [⟨.debug, s!"Inserted {st.number_of_buffered_events} events into Fluent Bit"⟩]
      | .requestException message =>
          [⟨.warning, s!"Unable to send events with error: {message}"⟩]
    ({ st with event_documents := [], number_of_buffered_events := 0 },
     some ⟨url, st.event_documents⟩, logs)

/-- Embedding of `Close`: inserts any remaining buffered event documents
by calling `_FlushEvents`. -/
def Close (st : SinkState) (resp : HttpResult) :
    SinkState × Option PostCall × List LogEntry :=
  FlushEvents st resp

/-- Embedding of `SetIndexName`. -/
def SetIndexName (st : SinkState) (index_name : String) : SinkState :=
  { st with index_name := some index_name }

/-- Embedding of `SetFlushInterval`. -/
def SetFlushInterval (st : SinkState) (flush_interval : Nat) : SinkState :=
  { st with flush_interval := flush_interval }

/-- Document enrichment performed by `FluentBitOutputModule.WriteFieldValues`
before buffering: when the index name is truthy the reserved key
`__ts_searchindex` is set to it. -/
def enrichBase (st : SinkState) (field_values : Doc) : Doc :=
  if truthyStr st.index_name then
    dictInsert "__ts_searchindex" (.vStr (st.index_name.getD "")) field_values
  else field_values

/-- Embedding of `FluentBitOutputModule.WriteFieldValues`: enrich, append
to the buffer, bump the counter, and flush when the counter exceeds the
flush interval.  `resp` is the outcome the external transport would
produce if this write triggers a flush. -/
def WriteFieldValues (st : SinkState) (resp : HttpResult) (field_values : Doc) :
    SinkState × Option PostCall × List LogEntry :=
  let fv := enrichBase st field_values
  let st2 := { st with
    event_documents := st.event_documents ++ [fv]
    number_of_buffered_events := st.number_of_buffered_events + 1 }
  if st2.flush_interval < st2.number_of_buffered_events then FlushEvents st2 resp
  else (st2, none, [])

/-- Iterated `WriteFieldValues`: each input is one field document together
with the transport outcome a flush at that step would observe.  Returns
the final state and the list of POSTs issued along the way. -/
def writeMany (st : SinkState) : List (Doc × HttpResult) → SinkState × List PostCall
  | [] => (st, [])
  | (d, r) :: rest =>
      let step := WriteFieldValues st r d
      let tail := writeMany step.1 rest
      (tail.1, step.2.1.toList ++ tail.2)

/-- State of a `FluentBitTimesketchOutputModule` instance: the shared base
state plus the timeline identifier, `None` until `SetTimelineIdentifier`
is called. -/
structure TSState where
  base : SinkState
  timeline_identifier : Option Int

/-- State of a freshly constructed Timesketch sink
(`FluentBitTimesketchOutputModule.__init__`). -/
def initTS : TSState := ⟨initState, none⟩

/-- Embedding of `SetTimelineIdentifier`. -/
def SetTimelineIdentifier (st : TSState) (timeline_identifier : Int) : TSState :=
  { st with timeline_identifier := some timeline_identifier }

/-- The Python value stored for the timeline identifier: the integer when
set, `None` otherwise (the source stamps `self._timeline_identifier`
unconditionally). -/
def pyOptInt : Option Int → Value
  | none => .vNone
  | some i => .vInt i

/-- Document enrichment performed by
`FluentBitTimesketchOutputModule.WriteFieldValues` before buffering: the
reserved key `__ts_timeline_id` is always set to the timeline identifier,
then `__ts_searchindex` is set when the index name is truthy. -/
def enrichTS (st : TSState) (field_values : Doc) : Doc :=
  let fv := dictInsert "__ts_timeline_id" (pyOptInt st.timeline_identifier) field_values
  if truthyStr st.base.index_name then
    dictInsert "__ts_searchindex" (.vStr (st.base.index_name.getD "")) fv
  else fv

/-- Embedding of `FluentBitTimesketchOutputModule.WriteFieldValues`. -/
def WriteFieldValuesTS (st : TSState) (resp : HttpResult) (field_values : Doc) :
    TSState × Option PostCall × List LogEntry :=
  let fv := enrichTS st field_values
  let b2 : SinkState := { st.base with
    event_documents := st.base.event_documents ++ [fv]
    number_of_buffered_events := st.base.number_of_buffered_events + 1 }
  if b2.flush_interval < b2.number_of_buffered_events then
    let out := FlushEvents b2 resp
    (⟨out.1, st.timeline_identifier⟩, out.2.1, out.2.2)
  else (⟨b2, st.timeline_identifier⟩, none, [])

/-- Python truthiness of `self._timeline_identifier`
(`if not self._timeline_identifier:`): `None` and 0 are falsy. -/
def truthyOptInt : Option Int → Bool
  | none => false
  | some i => i != 0

/-- Embedding of `FluentBitTimesketchOutputModule.GetMissingArguments`. -/
def GetMissingArguments (st : TSState) : List String :=
  if ¬truthyOptInt st.timeline_identifier then ["timeline_id"] else []

/-- Event data: an attribute bag (`GetAttributes()` pairs in order) with a
declared `data_type`. -/
structure EventData where
  data_type : String
  attributes : List (String × Value)

/-- Event data stream: an attribute bag (`GetAttributes()` pairs in
order). -/
structure EventDataStream where
  attributes : List (String × Value)

/-- The skip tests of the `event_data` loop of `GetFieldValues`: attribute
container identifiers, date and time values, non-empty lists whose first
element is a date and time value, and protected internal-only attribute
names other than `_parser_chain`.  The source tests
`attribute_name[0] == chr(95)`; attribute names are Python identifiers
and hence non-empty, so the head of the character list models index 0. -/
def skipAttribute (attribute_name : String) (attribute_value : Value) : Bool :=
  (match attribute_value with
   | .vIdentifier => true
   | .vDateTime => true
   | _ => false) ||
  (match attribute_value with
   | .vList (first :: _) =>
       (match first with
        | .vDateTime => true
        | _ => false)
   | _ => false) ||
  ((match attribute_name.data with
    | c :: _ => c = '_'
    | [] => false) && !(attribute_name = "_parser_chain"))

/-- The backwards-compatibility rename of the `event_data` loop:
`_parser_chain` is output as `parser`. -/
def renameAttribute (attribute_name : String) : String :=
  if attribute_name = "_parser_chain" then "parser" else attribute_name

/-- The `event_values` dictionary of `GetFieldValues` after the first
three loops: retained and renamed `event_data` attributes, then
`event_data_stream` attributes merged in (overwriting same-named keys),
then every configured field name still absent filled with `None`. -/
def buildEventValues (field_names : List String) (event_data : Option EventData)
    (event_data_stream : Option EventDataStream) : List (String × Value) :=
  let ev : List (String × Value) :=
    match event_data with
    | none => []
    | some ed =>
        ed.attributes.foldl
          (fun acc p =>
            if skipAttribute p.1 p.2 then acc
            else dictInsert (renameAttribute p.1) p.2 acc) []
  let ev : List (String × Value) :=
    match event_data_stream with
    | none => ev
    | some s => s.attributes.foldl (fun acc p => dictInsert p.1 p.2 acc) ev
  field_names.foldl
    (fun acc attribute_name =>
      if containsKey attribute_name acc then acc
      else dictInsert attribute_name .vNone acc) ev

/-- The body of the final loop of `GetFieldValues` for one
`(attribute_name, attribute_value)` entry of `event_values`.  For
`path_spec` the dfVFS serializer (`serialize`; `none` models a raised
`TypeError`) is used and on failure the field is dropped (`.ok none`);
otherwise the external formatting helper (`format`, already applied to the
mediator and record components) yields a string or `None`.  A `None`
result is replaced by the custom-field literal when configured, then by
the sentinel; the result is sanitized with `event_data.data_type` — which
raises an `AttributeError` when `event_data` is `None`. -/
def resolveFieldEntry (decode : List Nat → String)
    (custom_fields : List (String × String)) (serialize : Value → Option String)
    (format : String → Option String) (event_data : Option EventData)
    (attribute_name : String) (attribute_value : Value) :
    Except String (Option Value) :=
  let step : Option (Option Value) :=
    if attribute_name = "path_spec" then
      match serialize attribute_value with
      | some s => some (some (.vStr s))
      | none => none
    else
      some ((format attribute_name).map .vStr)
  match step with
  | none => .ok none
  | some field_value =>
      let field_value :=
        if field_value.isNone && containsKey attribute_name custom_fields then
          (dictLookup attribute_name custom_fields).map .vStr
        else field_value
      let field_value := field_value.getD (.vStr "-")
      match event_data with
      | none => .error "AttributeError: NoneType object has no attribute data_type"
      | some ed =>
          .ok (some (_SanitizeField decode ed.data_type attribute_name field_value))

/-- The final loop of `GetFieldValues`: builds `field_values` by resolving
each `event_values` entry in order, dropping an entry when its
`resolveFieldEntry` is `.ok none` and propagating a raised exception. -/
def resolveFields (decode : List Nat → String)
    (custom_fields : List (String × String)) (serialize : Value → Option String)
    (format : String → Option String) (event_data : Option EventData) :
    List (String × Value) → Except String (List (String × Value))
  | [] => .ok []
  | (attribute_name, attribute_value) :: rest =>
      match resolveFieldEntry decode custom_fields serialize format event_data
          attribute_name attribute_value with
      | .error e => .error e
      | .ok none =>
          resolveFields decode custom_fields serialize format event_data rest
      | .ok (some v) =>
          match resolveFields decode custom_fields serialize format event_data rest with
          | .error e => .error e
          | .ok tail => .ok ((attribute_name, v) :: tail)

/-- Embedding of `SharedFluentBitOutputModule.GetFieldValues`.  The
external collaborators are parameters: `decode` (stdlib
`bytes.decode` with replacement), `serialize`
(`JsonPathSpecSerializer.WriteSerialized`, `none` for a raised
`TypeError`) and `format` (the per-field formatting helper applied to this
record).  `.error` models a Python exception escaping the method. -/
def GetFieldValues (st : SinkState) (decode : List Nat → String)
    (serialize : Value → Option String) (format : String → Option String)
    (event_data : Option EventData) (event_data_stream : Option EventDataStream) :
    Except String (List (String × Value)) :=
  resolveFields decode st.custom_fields serialize format event_data
    (buildEventValues st.field_names event_data event_data_stream)

/-- Embedding of `SetAdditionalFields` as observed by a single instance:
`self._field_names.extend(field_names)`. -/
def SetAdditionalFields (st : SinkState) (field_names : List String) : SinkState :=
  { st with field_names := st.field_names ++ field_names }

/-- Embedding of `SetCustomFields` as observed by a single instance:
`self._custom_fields = dict(field_names_and_values)` followed by
`self._field_names.extend(self._custom_fields.keys())`. -/
def SetCustomFields (st : SinkState)
    (field_names_and_values : List (String × String)) : SinkState :=
  let custom := pyDict field_names_and_values
  { st with
    custom_fields := custom
    field_names := st.field_names ++ custom.map Prod.fst }

/-!
Heap model for the class-level field-name list.  In the source,
`__init__` executes `self._field_names = self._DEFAULT_FIELD_NAMES`: a
CPython attribute assignment binds the instance attribute to the very
list object stored on the class, and no method ever rebinds
`_field_names`, so every instance's `_field_names` permanently aliases
the one shared class-level list object.  `SetAdditionalFields` and
`SetCustomFields` call `list.extend`, which mutates that shared object in
place.  `FBWorld` is the heap: the current contents of the shared class
attribute `_DEFAULT_FIELD_NAMES`.
-/

/-- The heap: contents of the shared class-level list object
`SharedFluentBitOutputModule._DEFAULT_FIELD_NAMES`. -/
structure FBWorld where
  classFieldNames : List String

/-- The heap at interpreter start: the class body initializes the list to
the eight default names. -/
def initialWorld : FBWorld := ⟨DEFAULT_FIELD_NAMES⟩

/-- The field-name list observed by any instance (constructed at any
time): `__init__` aliases `self._field_names` to the shared class list
and nothing ever rebinds it. -/
def instanceFieldNames (w : FBWorld) : List String := w.classFieldNames

/-- `SetAdditionalFields` on any instance: `list.extend` mutates the
shared class-level list object in place. -/
def worldSetAdditionalFields (w : FBWorld) (field_names : List String) : FBWorld :=
  ⟨w.classFieldNames ++ field_names⟩

/-- `SetCustomFields` on any instance: extends the shared class-level
list object with the keys of `dict(field_names_and_values)`. -/
def worldSetCustomFields (w : FBWorld)
    (field_names_and_values : List (String × String)) : FBWorld :=
  ⟨w.classFieldNames ++ (pyDict field_names_and_values).map Prod.fst⟩

/-! Dictionary lemmas. -/

theorem dictLookup_insert_self {α : Type} (k : String) (v : α)
    (d : List (String × α)) : dictLookup k (dictInsert k v d) = some v := by
  induction d with
  | nil => simp [dictInsert, dictLookup]
  | cons p rest ih =>
      obtain ⟨k2, v2⟩ := p
      by_cases h : k2 = k
      · simp [dictInsert, dictLookup, h]
      · simp [dictInsert, dictLookup, h, ih]

theorem dictLookup_insert_ne {α : Type} (k k2 : String) (hk : k ≠ k2) (v : α)
    (d : List (String × α)) : dictLookup k (dictInsert k2 v d) = dictLookup k d := by
  have hk2 : ¬(k2 = k) := fun h => hk h.symm
  induction d with
  | nil => simp [dictInsert, dictLookup, hk2]
  | cons p rest ih =>
      obtain ⟨k3, v3⟩ := p
      by_cases h : k3 = k2
      · subst h
        simp [dictInsert, dictLookup, hk2]
      · simp [dictInsert, dictLookup, h, ih]

theorem containsKey_eq_isSome {α : Type} (k : String) (d : List (String × α)) :
    containsKey k d = (dictLookup k d).isSome := by
  induction d with
  | nil => simp [containsKey, dictLookup]
  | cons p rest ih =>
      obtain ⟨k2, v2⟩ := p
      by_cases h : k2 = k <;> simp [containsKey, dictLookup, h, ih]

theorem containsKey_dictInsert {α : Type} (a k : String) (v : α)
    (d : List (String × α)) :
    containsKey a (dictInsert k v d) = (decide (k = a) || containsKey a d) := by
  induction d with
  | nil => simp [dictInsert, containsKey]
  | cons p rest ih =>
      obtain ⟨k2, v2⟩ := p
      by_cases h : k2 = k
      · subst h
        cases h2 : decide (k2 = a) <;> simp [dictInsert, containsKey, h2]
      · simp [dictInsert, containsKey, h, ih, Bool.or_left_comm]

theorem containsKey_exists_mem {α : Type} (k : String) (d : List (String × α))
    (h : containsKey k d = true) : ∃ v, (k, v) ∈ d := by
  induction d with
  | nil => simp [containsKey] at h
  | cons p rest ih =>
      obtain ⟨k2, v2⟩ := p
      by_cases h2 : k2 = k
      · exact ⟨v2, by simp [h2]⟩
      · simp [containsKey, h2] at h
        obtain ⟨v, hv⟩ := ih h
        exact ⟨v, by simp [hv]⟩

/-! Claim theorems. -/

/-- C5: `_SanitizeField` decodes a bytes value with the UTF-8 replacement
decoder and returns every non-bytes value unchanged; it is total (a plain
function) and idempotent — applying it twice to any value, in particular
any already-text value, equals applying it once. -/
theorem claim_C5_sanitize_idempotent :
    ∀ (decode : List Nat → String) (data_type attribute_name : String) (v : Value),
      _SanitizeField decode data_type attribute_name
          (_SanitizeField decode data_type attribute_name v) =
        _SanitizeField decode data_type attribute_name v ∧
      (∀ b : List Nat,
        _SanitizeField decode data_type attribute_name (.vBytes b) =
          .vStr (decode b)) ∧
      (isBytesValue v = false → _SanitizeField decode data_type attribute_name v = v) := by
  intro decode dt an v
  refine ⟨?_, fun b => rfl, ?_⟩ <;> cases v <;> simp [_SanitizeField, isBytesValue]

theorem claim_C5_witness :
    isBytesValue (Value.vStr "x") = false ∧
      _SanitizeField (fun _ => "?") "t" "a" (Value.vStr "x") = Value.vStr "x" :=
  ⟨rfl, (claim_C5_sanitize_idempotent (fun _ => "?") "t" "a" (Value.vStr "x")).2.2 rfl⟩

/-- C8 counterexample: `SetTimelineIdentifier(0)` sets a timeline
identifier, yet `GetMissingArguments` still returns `['timeline_id']`
because the source tests Python truthiness (`if not
self._timeline_identifier:`) and 0 is falsy — refuting the claimed
equivalence with "no identifier has been set". -/
theorem claim_C8_counterexample :
    (SetTimelineIdentifier initTS 0).timeline_identifier = some 0 ∧
      GetMissingArguments (SetTimelineIdentifier initTS 0) = ["timeline_id"] := by
  exact ⟨rfl, by simp [GetMissingArguments, SetTimelineIdentifier, truthyOptInt, initTS]⟩

/-- C8 (amended): `GetMissingArguments` returns `['timeline_id']` exactly
when the timeline identifier is unset or set to the falsy value 0, and
returns `[]` after `SetTimelineIdentifier` with any non-zero identifier. -/
theorem claim_C8_missing_arguments :
    ∀ st : TSState,
      (GetMissingArguments st = ["timeline_id"] ↔
        st.timeline_identifier = none ∨ st.timeline_identifier = some 0) ∧
      (∀ i : Int, i ≠ 0 →
        GetMissingArguments (SetTimelineIdentifier st i) = []) := by
  intro st
  constructor
  · cases h : st.timeline_identifier with
    | none => simp [GetMissingArguments, truthyOptInt, h]
    | some i =>
        by_cases hi : i = 0 <;>
          simp [GetMissingArguments, truthyOptInt, h, hi]
  · intro i hi
    simp [GetMissingArguments, SetTimelineIdentifier, truthyOptInt, hi]

theorem claim_C8_witness :
    (42 : Int) ≠ 0 ∧ GetMissingArguments (SetTimelineIdentifier initTS 42) = [] :=
  ⟨by decide, (claim_C8_missing_arguments initTS).2 42 (by decide)⟩

/-- C9: `Close` forces one final flush of whatever the buffer holds (the
whole buffer is the payload of the one POST), and with an empty buffer it
performs no transport call and leaves the state unchanged. -/
theorem claim_C9_close :
    ∀ (st : SinkState) (resp : HttpResult),
      (st.event_documents ≠ [] →
        (Close st resp).2.1 = some ⟨buildURL st, st.event_documents⟩) ∧
      (st.event_documents = [] → Close st resp = (st, none, [])) := by
  intro st resp
  constructor
  · intro h
    simp [Close, FlushEvents, h]
  · intro h
    simp [Close, FlushEvents, h]

theorem claim_C9_witness :
    initState.event_documents = [] ∧
      Close initState (HttpResult.response 200 "") = (initState, none, []) :=
  ⟨rfl, (claim_C9_close initState (HttpResult.response 200 "")).2 rfl⟩

/-- C10: the field-name list is initialized by aliasing the class-level
default list and extended in place, so additional or custom field names
configured on one instance appear in the field names of a distinct
instance constructed afterwards, and `SetAdditionalFields` with a
non-empty list mutates the shared class default. -/
theorem claim_C10_shared_default_mutation :
    "extra_field" ∈
        instanceFieldNames (worldSetAdditionalFields initialWorld ["extra_field"]) ∧
      (worldSetAdditionalFields initialWorld ["extra_field"]).classFieldNames ≠
        DEFAULT_FIELD_NAMES ∧
      "custom_col" ∈
        instanceFieldNames (worldSetCustomFields initialWorld [("custom_col", "v")]) := by
  refine ⟨?_, ?_, ?_⟩ <;> decide

theorem truthyStr_some {s : String} (h : s ≠ "") : truthyStr (some s) = true := by
  have he : s.isEmpty = false := by
    rw [Bool.eq_false_iff]
    intro hh
    exact h ((String.isEmpty_iff s).mp hh)
  simp [truthyStr, he]

/-- C7: on the Timesketch sink every document written via
`WriteFieldValues` is stamped with the timeline identifier under
`__ts_timeline_id` and, when an index name is configured, with it under
`__ts_searchindex`; the stamped document is exactly what enters the
buffer (it is the last element of the new buffer, or of the flushed
payload when this write triggers the flush). -/
theorem claim_C7_ts_stamping :
    ∀ (st : TSState) (field_values : Doc) (resp : HttpResult),
      dictLookup "__ts_timeline_id" (enrichTS st field_values) =
        some (pyOptInt st.timeline_identifier) ∧
      (∀ n : String, st.base.index_name = some n → n ≠ "" →
        dictLookup "__ts_searchindex" (enrichTS st field_values) =
          some (.vStr n)) ∧
      (match (WriteFieldValuesTS st resp field_values).2.1 with
       | some p => p.payload.getLast? = some (enrichTS st field_values)
       | none =>
           (WriteFieldValuesTS st resp field_values).1.base.event_documents.getLast? =
             some (enrichTS st field_values)) := by
  intro st field_values resp
  refine ⟨?_, ?_, ?_⟩
  · unfold enrichTS
    by_cases h : truthyStr st.base.index_name
    · simp only [h, if_true]
      rw [dictLookup_insert_ne _ _ (by decide)]
      exact dictLookup_insert_self _ _ _
    · simp only [h, if_false]
      exact dictLookup_insert_self _ _ _
  · intro n hn hne
    unfold enrichTS
    rw [hn]
    simp only [truthyStr_some hne, if_true, Option.getD_some]
    exact dictLookup_insert_self _ _ _
  · unfold WriteFieldValuesTS
    by_cases h : st.base.flush_interval < st.base.number_of_buffered_events + 1
    · simp only [h, if_true, FlushEvents]
      simp [List.getLast?_concat]
    · simp only [h, if_false]
      simp [List.getLast?_concat]

/-- Timesketch sink configured with `SetTimelineIdentifier(42)` and
`SetIndexName("caseA")`, for the C7 witness. -/
def tsExample : TSState :=
  SetTimelineIdentifier { initTS with base := SetIndexName initTS.base "caseA" } 42

theorem claim_C7_witness :
    tsExample.base.index_name = some "caseA" ∧
      ("caseA" : String) ≠ "" ∧
      dictLookup "__ts_timeline_id" (enrichTS tsExample [("message", .vStr "m")]) =
        some (pyOptInt (some 42)) ∧
      dictLookup "__ts_searchindex" (enrichTS tsExample [("message", .vStr "m")]) =
        some (.vStr "caseA") :=
  ⟨rfl, by decide,
    (claim_C7_ts_stamping tsExample [("message", .vStr "m")]
      (HttpResult.response 200 "")).1,
    (claim_C7_ts_stamping tsExample [("message", .vStr "m")]
      (HttpResult.response 200 "")).2.1 "caseA" rfl (by decide)⟩

/-- C3: `_FlushEvents` on a non-empty buffer issues exactly one POST of
the whole buffer as one JSON array to `http://{host}:{port}`, or
`http://{host}:{port}/{prefix}` when a URL prefix is configured
(truthy); status 200 and 201 log a debug record, any other status or a
request exception logs a warning; and on every outcome the buffer and the
buffered-event counter are reset, the rest of the state unchanged, with
no exception propagated (the embedding is a total function). -/
theorem claim_C3_flush_transport :
    ∀ (st : SinkState) (resp : HttpResult), st.event_documents ≠ [] →
      (FlushEvents st resp).1 =
        { st with event_documents := [], number_of_buffered_events := 0 } ∧
      (FlushEvents st resp).2.1 = some ⟨buildURL st, st.event_documents⟩ ∧
      (truthyStr st.urlPrefix = false → buildURL st = s!"http://{st.host}:{st.port}") ∧
      (∀ p : String, st.urlPrefix = some p → p ≠ "" →
        buildURL st = s!"http://{st.host}:{st.port}" ++ "/" ++ p) ∧
      (∀ c t, resp = .response c t → (c = 200 ∨ c = 201) →
        ((FlushEvents st resp).2.2).map LogEntry.level = [.debug]) ∧
      (∀ c t, resp = .response c t → ¬(c = 200 ∨ c = 201) →
        ((FlushEvents st resp).2.2).map LogEntry.level = [.warning]) ∧
      (∀ m, resp = .requestException m →
        ((FlushEvents st resp).2.2).map LogEntry.level = [.warning]) := by
  intro st resp h
  refine ⟨?_, ?_, ?_, ?_, ?_, ?_, ?_⟩
  · simp [FlushEvents, h]
  · simp [FlushEvents, h]
  · intro hp
    simp [buildURL, hp]
  · intro p hp hne
    unfold buildURL
    rw [hp]
    simp [truthyStr_some hne]
  · intro c t hresp hc
    subst hresp
    simp [FlushEvents, h, hc]
  · intro c t hresp hc
    subst hresp
    simp [FlushEvents, h, hc]
  · intro m hresp
    subst hresp
    simp [FlushEvents, h]

theorem claim_C3_witness :
    ({ initState with
        event_documents := [[("message", Value.vStr "m")]],
        number_of_buffered_events := 1 } : SinkState).event_documents ≠ [] ∧
      (FlushEvents { initState with
          event_documents := [[("message", Value.vStr "m")]],
          number_of_buffered_events := 1 } (HttpResult.response 500 "err")).2.1 =
        some ⟨buildURL { initState with
          event_documents := [[("message", Value.vStr "m")]],
          number_of_buffered_events := 1 }, [[("message", Value.vStr "m")]]⟩ :=
  ⟨by simp, (claim_C3_flush_transport { initState with
      event_documents := [[("message", Value.vStr "m")]],
      number_of_buffered_events := 1 } (HttpResult.response 500 "err")
      (by simp)).2.1⟩

/-! Field-resolution lemmas. -/

theorem resolveFieldEntry_drop (decode : List Nat → String)
    (custom_fields : List (String × String)) (serialize : Value → Option String)
    (format : String → Option String) (event_data : Option EventData)
    (name : String) (value : Value) (hn : name = "path_spec")
    (hs : serialize value = none) :
    resolveFieldEntry decode custom_fields serialize format event_data name value =
      .ok none := by
  simp [resolveFieldEntry, hn, hs]

theorem resolveFieldEntry_pathspec_ok (decode : List Nat → String)
    (custom_fields : List (String × String)) (serialize : Value → Option String)
    (format : String → Option String) (ed : EventData)
    (name : String) (value : Value) (s : String) (hn : name = "path_spec")
    (hs : serialize value = some s) :
    resolveFieldEntry decode custom_fields serialize format (some ed) name value =
      .ok (some (_SanitizeField decode ed.data_type name (.vStr s))) := by
  simp [resolveFieldEntry, hn, hs]

theorem resolveFieldEntry_format_some (decode : List Nat → String)
    (custom_fields : List (String × String)) (serialize : Value → Option String)
    (format : String → Option String) (ed : EventData)
    (name : String) (value : Value) (s : String) (hn : name ≠ "path_spec")
    (hf : format name = some s) :
    resolveFieldEntry decode custom_fields serialize format (some ed) name value =
      .ok (some (_SanitizeField decode ed.data_type name (.vStr s))) := by
  simp [resolveFieldEntry, hn, hf]

theorem resolveFieldEntry_custom (decode : List Nat → String)
    (custom_fields : List (String × String)) (serialize : Value → Option String)
    (format : String → Option String) (ed : EventData)
    (name : String) (value : Value) (c : String) (hn : name ≠ "path_spec")
    (hf : format name = none) (hc : dictLookup name custom_fields = some c) :
    resolveFieldEntry decode custom_fields serialize format (some ed) name value =
      .ok (some (_SanitizeField decode ed.data_type name (.vStr c))) := by
  simp [resolveFieldEntry, hn, hf, containsKey_eq_isSome, hc]

theorem resolveFieldEntry_sentinel (decode : List Nat → String)
    (custom_fields : List (String × String)) (serialize : Value → Option String)
    (format : String → Option String) (ed : EventData)
    (name : String) (value : Value) (hn : name ≠ "path_spec")
    (hf : format name = none) (hc : dictLookup name custom_fields = none) :
    resolveFieldEntry decode custom_fields serialize format (some ed) name value =
      .ok (some (_SanitizeField decode ed.data_type name (.vStr "-"))) := by
  simp [resolveFieldEntry, hn, hf, containsKey_eq_isSome, hc]

theorem resolveFieldEntry_keep (decode : List Nat → String)
    (custom_fields : List (String × String)) (serialize : Value → Option String)
    (format : String → Option String) (ed : EventData)
    (name : String) (value : Value)
    (h : ¬(name = "path_spec" ∧ serialize value = none)) :
    ∃ w, resolveFieldEntry decode custom_fields serialize format (some ed) name value =
      .ok (some w) := by
  by_cases hn : name = "path_spec"
  · cases hser : serialize value with
    | none => exact absurd ⟨hn, hser⟩ h
    | some s =>
        exact ⟨_, resolveFieldEntry_pathspec_ok decode custom_fields serialize
          format ed name value s hn hser⟩
  · cases hf : format name with
    | some s =>
        exact ⟨_, resolveFieldEntry_format_some decode custom_fields serialize
          format ed name value s hn hf⟩
    | none =>
        cases hc : dictLookup name custom_fields with
        | some c =>
            exact ⟨_, resolveFieldEntry_custom decode custom_fields serialize
              format ed name value c hn hf hc⟩
        | none =>
            exact ⟨_, resolveFieldEntry_sentinel decode custom_fields serialize
              format ed name value hn hf hc⟩

/-- C6: per-field resolution — a `path_spec` field whose serialization
fails is dropped (not sentineled); a field the formatting helper resolves
to `None` takes the configured custom literal when one exists, else the
sentinel `"-"`; and the sanitizer is applied to the resulting value. -/
theorem claim_C6_field_resolution :
    ∀ (decode : List Nat → String) (custom_fields : List (String × String))
      (serialize : Value → Option String) (format : String → Option String)
      (ed : EventData) (name : String) (value : Value),
      (name = "path_spec" → serialize value = none →
        resolveFieldEntry decode custom_fields serialize format (some ed)
          name value = .ok none) ∧
      (name ≠ "path_spec" → format name = none →
        ∀ c, dictLookup name custom_fields = some c →
          resolveFieldEntry decode custom_fields serialize format (some ed)
            name value =
            .ok (some (_SanitizeField decode ed.data_type name (.vStr c)))) ∧
      (name ≠ "path_spec" → format name = none →
        dictLookup name custom_fields = none →
          resolveFieldEntry decode custom_fields serialize format (some ed)
            name value =
            .ok (some (_SanitizeField decode ed.data_type name (.vStr "-")))) := by
  intro decode custom_fields serialize format ed name value
  exact ⟨fun hn hs => resolveFieldEntry_drop decode custom_fields serialize
      format (some ed) name value hn hs,
    fun hn hf c hc => resolveFieldEntry_custom decode custom_fields serialize
      format ed name value c hn hf hc,
    fun hn hf hc => resolveFieldEntry_sentinel decode custom_fields serialize
      format ed name value hn hf hc⟩

theorem claim_C6_witness :
    ("path_spec" : String) = "path_spec" ∧
      ((fun _ => none : Value → Option String) (Value.vPathSpec 0)) = none ∧
      resolveFieldEntry (fun _ => "") [("colA", "valA")] (fun _ => none)
          (fun _ => none) (some ⟨"dt", []⟩) "path_spec" (Value.vPathSpec 0) =
        .ok none ∧
      ("colA" : String) ≠ "path_spec" ∧
      dictLookup "colA" [("colA", "valA")] = some "valA" ∧
      resolveFieldEntry (fun _ => "") [("colA", "valA")] (fun _ => none)
          (fun _ => none) (some ⟨"dt", []⟩) "colA" Value.vNone =
        .ok (some (_SanitizeField (fun _ => "") "dt" "colA" (.vStr "valA"))) ∧
      resolveFieldEntry (fun _ => "") [("colA", "valA")] (fun _ => none)
          (fun _ => none) (some ⟨"dt", []⟩) "datetime" Value.vNone =
        .ok (some (_SanitizeField (fun _ => "") "dt" "datetime" (.vStr "-"))) :=
  ⟨rfl, rfl,
    (claim_C6_field_resolution (fun _ => "") [("colA", "valA")] (fun _ => none)
      (fun _ => none) ⟨"dt", []⟩ "path_spec" (Value.vPathSpec 0)).1 rfl rfl,
    by decide, rfl,
    (claim_C6_field_resolution (fun _ => "") [("colA", "valA")] (fun _ => none)
      (fun _ => none) ⟨"dt", []⟩ "colA" Value.vNone).2.1 (by decide) rfl "valA" rfl,
    (claim_C6_field_resolution (fun _ => "") [("colA", "valA")] (fun _ => none)
      (fun _ => none) ⟨"dt", []⟩ "datetime" Value.vNone).2.2 (by decide) rfl rfl⟩

/-- C4 (code bug): with an absent event-data component the final loop of
`GetFieldValues` evaluates `event_data.data_type` for the `_SanitizeField`
call and raises an `AttributeError` — contradicting the never-raises
contract (and the `if event_data:` guard earlier in the same method, which
admits the absent component).  Evaluated at the failing input: default
configuration, `event_data = None`, `event_data_stream = None`. -/
theorem claim_C4_event_data_none_raises :
    GetFieldValues initState (fun _ => "") (fun _ => none) (fun _ => none)
        none none =
      .error "AttributeError: NoneType object has no attribute data_type" := rfl

/-- Entry survival predicate of the final `GetFieldValues` loop: an
`event_values` entry is kept unless it is `path_spec` with a failing
serialization. -/
def keptEntry (serialize : Value → Option String) (p : String × Value) : Bool :=
  !(decide (p.1 = "path_spec") && (serialize p.2).isNone)

theorem resolveFields_keys (decode : List Nat → String)
    (custom_fields : List (String × String)) (serialize : Value → Option String)
    (format : String → Option String) (ed : EventData) :
    ∀ lst : List (String × Value),
      ∃ out, resolveFields decode custom_fields serialize format (some ed) lst =
          .ok out ∧
        out.map Prod.fst = (lst.filter (keptEntry serialize)).map Prod.fst := by
  intro lst
  induction lst with
  | nil => exact ⟨[], rfl, rfl⟩
  | cons p rest ih =>
      obtain ⟨out, hout, hkeys⟩ := ih
      obtain ⟨name, value⟩ := p
      by_cases hd : name = "path_spec" ∧ serialize value = none
      · have hb : keptEntry serialize (name, value) = false := by
          simp [keptEntry, hd.1, hd.2]
        refine ⟨out, ?_, ?_⟩
        · simp only [resolveFields,
            resolveFieldEntry_drop decode custom_fields serialize format
              (some ed) name value hd.1 hd.2]
          exact hout
        · simp [List.filter_cons, hb, hkeys]
      · obtain ⟨w, hw⟩ := resolveFieldEntry_keep decode custom_fields serialize
          format ed name value hd
        have hb : keptEntry serialize (name, value) = true := by
          simp only [keptEntry, Bool.not_eq_true']
          rw [Bool.eq_false_iff]
          intro hand
          obtain ⟨h1, h2⟩ := Bool.and_eq_true_iff.mp hand
          exact hd ⟨of_decide_eq_true h1, Option.isNone_iff_eq_none.mp h2⟩
        refine ⟨(name, w) :: out, ?_, ?_⟩
        · simp only [resolveFields, hw, hout]
        · simp [List.filter_cons, hb, hkeys]

theorem containsKey_fillFold (field_names : List String) :
    ∀ (acc : List (String × Value)) (n : String),
      n ∈ field_names ∨ containsKey n acc = true →
      containsKey n (field_names.foldl
        (fun acc attribute_name =>
          if containsKey attribute_name acc then acc
          else dictInsert attribute_name .vNone acc) acc) = true := by
  induction field_names with
  | nil =>
      intro acc n h
      rcases h with h | h
      · cases h
      · exact h
  | cons m rest ih =>
      intro acc n h
      simp only [List.foldl_cons]
      apply ih
      rcases h with h | h
      · rcases List.mem_cons.mp h with h1 | h2
        · subst h1
          right
          by_cases hc : containsKey n acc
          · simp [hc]
          · simp [hc, containsKey_dictInsert]
        · exact Or.inl h2
      · right
        by_cases hc : containsKey m acc
        · simpa [hc]
        · simp [hc, containsKey_dictInsert, h]

theorem containsKey_buildEventValues (field_names : List String)
    (event_data : Option EventData) (event_data_stream : Option EventDataStream)
    (n : String) (h : n ∈ field_names) :
    containsKey n (buildEventValues field_names event_data event_data_stream) =
      true := by
  unfold buildEventValues
  exact containsKey_fillFold field_names _ n (Or.inl h)

theorem mem_keys_of_kept (serialize : Value → Option String)
    (lst : List (String × Value)) (n : String)
    (hc : containsKey n lst = true) (hn : n ≠ "path_spec") :
    n ∈ (lst.filter (keptEntry serialize)).map Prod.fst := by
  obtain ⟨v, hv⟩ := containsKey_exists_mem n lst hc
  have hk : keptEntry serialize (n, v) = true := by simp [keptEntry, hn]
  exact List.mem_map.mpr ⟨(n, v), List.mem_filter.mpr ⟨hv, hk⟩, rfl⟩

/-- Event data carrying an attribute `foo` outside the configured field
name set, for the C2 counterexample and witness. -/
def exampleEventData : EventData := ⟨"test:type", [("foo", .vStr "bar")]⟩

/-- C2 counterexample: for a record whose event data carries the
attribute `foo`, the returned document has the key `foo` although `foo`
is not in the configured field-name set — the key set of the document is
strictly larger than the configured set, refuting the claimed equality. -/
theorem claim_C2_counterexample :
    Except.map (fun l => l.map Prod.fst)
        (GetFieldValues initState (fun _ => "") (fun _ => none) (fun _ => none)
          (some exampleEventData) none) =
      .ok ["foo", "datetime", "display_name", "message", "source_long",
        "source_short", "tag", "timestamp", "timestamp_desc"] ∧
      ¬("foo" ∈ initState.field_names) :=
  ⟨by rfl, by decide⟩

/-- C2 (amended): the key set of the document returned by
`GetFieldValues` equals the key set of the merged attribute map (retained
and renamed event-data attributes, event-data-stream attributes, and
every configured field name filled in) minus `path_spec` entries whose
serialization fails; in particular every configured field name other
than a failing `path_spec` is a key, but retained record attributes
outside the configured set appear as keys too. -/
theorem claim_C2_keyset :
    ∀ (st : SinkState) (decode : List Nat → String)
      (serialize : Value → Option String) (format : String → Option String)
      (ed : EventData) (eds : Option EventDataStream)
      (out : List (String × Value)),
      GetFieldValues st decode serialize format (some ed) eds = .ok out →
      out.map Prod.fst =
        ((buildEventValues st.field_names (some ed) eds).filter
          (keptEntry serialize)).map Prod.fst ∧
      (∀ n, n ∈ st.field_names → n ≠ "path_spec" → n ∈ out.map Prod.fst) := by
  intro st decode serialize format ed eds out hout
  obtain ⟨out2, hout2, hkeys⟩ := resolveFields_keys decode st.custom_fields
    serialize format ed (buildEventValues st.field_names (some ed) eds)
  have hout3 : resolveFields decode st.custom_fields serialize format (some ed)
      (buildEventValues st.field_names (some ed) eds) = .ok out := hout
  rw [hout3] at hout2
  cases Except.ok.inj hout2
  refine ⟨hkeys, ?_⟩
  intro n hn hnp
  rw [hkeys]
  exact mem_keys_of_kept serialize _ n
    (containsKey_buildEventValues st.field_names (some ed) eds n hn) hnp

/-- The document `GetFieldValues` returns for `exampleEventData` under
the default configuration, for the C2 witness. -/
def exampleOut : List (String × Value) :=
  [("foo", .vStr "-"), ("datetime", .vStr "-"), ("display_name", .vStr "-"),
   ("message", .vStr "-"), ("source_long", .vStr "-"),
   ("source_short", .vStr "-"), ("tag", .vStr "-"), ("timestamp", .vStr "-"),
   ("timestamp_desc", .vStr "-")]

theorem claim_C2_witness :
    GetFieldValues initState (fun _ => "") (fun _ => none) (fun _ => none)
        (some exampleEventData) none = .ok exampleOut ∧
      exampleOut.map Prod.fst =
        ((buildEventValues initState.field_names (some exampleEventData)
          none).filter (keptEntry (fun _ => none))).map Prod.fst :=
  ⟨by rfl,
    (claim_C2_keyset initState (fun _ => "") (fun _ => none) (fun _ => none)
      exampleEventData none exampleOut (by rfl)).1⟩

/-! Buffering and flush-policy lemmas. -/

theorem WriteFieldValues_no_flush (st : SinkState) (resp : HttpResult) (d : Doc)
    (h : st.number_of_buffered_events < st.flush_interval) :
    WriteFieldValues st resp d =
      ({ st with
          event_documents := st.event_documents ++ [enrichBase st d]
          number_of_buffered_events := st.number_of_buffered_events + 1 },
        none, []) := by
  have hn : ¬(st.flush_interval < st.number_of_buffered_events + 1) := by omega
  simp [WriteFieldValues, hn]

theorem WriteFieldValues_flush (st : SinkState) (resp : HttpResult) (d : Doc)
    (h : st.flush_interval ≤ st.number_of_buffered_events) :
    (WriteFieldValues st resp d).1.event_documents = [] ∧
      (WriteFieldValues st resp d).1.number_of_buffered_events = 0 ∧
      (WriteFieldValues st resp d).1.flush_interval = st.flush_interval ∧
      ∃ p, (WriteFieldValues st resp d).2.1 = some p := by
  have hlt : st.flush_interval < st.number_of_buffered_events + 1 := by omega
  refine ⟨?_, ?_, ?_, ?_⟩ <;> simp [WriteFieldValues, hlt, FlushEvents]

theorem writeMany_accumulate :
    ∀ (inputs : List (Doc × HttpResult)) (st : SinkState),
      st.number_of_buffered_events + inputs.length ≤ st.flush_interval →
      (writeMany st inputs).1.event_documents.length =
          st.event_documents.length + inputs.length ∧
        (writeMany st inputs).1.number_of_buffered_events =
          st.number_of_buffered_events + inputs.length ∧
        (writeMany st inputs).1.flush_interval = st.flush_interval ∧
        (writeMany st inputs).2 = [] := by
  intro inputs
  induction inputs with
  | nil =>
      intro st h
      simp [writeMany]
  | cons p rest ih =>
      intro st h
      obtain ⟨d, r⟩ := p
      have hlt : st.number_of_buffered_events < st.flush_interval := by
        simp only [List.length_cons] at h
        omega
      have hstep := WriteFieldValues_no_flush st r d hlt
      obtain ⟨h1, h2, h3, h4⟩ := ih { st with
          event_documents := st.event_documents ++ [enrichBase st d]
          number_of_buffered_events := st.number_of_buffered_events + 1 }
        (by
          simp only [List.length_cons] at h
          simp only
          omega)
      simp only [writeMany, hstep]
      refine ⟨?_, ?_, ?_, ?_⟩
      · simp only [h1]
        simp
        omega
      · simp only [h2]
        simp
        omega
      · simp only [h3]
      · simp only [h4]
        simp

theorem writeMany_append (l1 l2 : List (Doc × HttpResult)) :
    ∀ st : SinkState,
      writeMany st (l1 ++ l2) =
        ((writeMany (writeMany st l1).1 l2).1,
          (writeMany st l1).2 ++ (writeMany (writeMany st l1).1 l2).2) := by
  induction l1 with
  | nil => intro st; simp [writeMany]
  | cons p rest ih =>
      intro st
      obtain ⟨d, r⟩ := p
      simp [writeMany, ih, List.append_assoc]

/-- C1: starting from an empty buffer with flush interval `N ≥ 1`, each of
the first `N` writes appends exactly one document with no flush, the
`(N+1)`-th write triggers exactly one flush and leaves the buffer empty
and the counter 0 — whatever each step's transport outcome is — and at
every observation point the buffer size never exceeds `N + 1`. -/
theorem claim_C1_flush_policy :
    ∀ (N : Nat) (st : SinkState) (inputs : List (Doc × HttpResult)),
      1 ≤ N →
      st.flush_interval = N →
      st.event_documents = [] →
      st.number_of_buffered_events = 0 →
      inputs.length = N + 1 →
      (∀ k, k ≤ N →
        (writeMany st (inputs.take k)).1.event_documents.length = k ∧
          (writeMany st (inputs.take k)).2 = []) ∧
      ((writeMany st inputs).1.event_documents = [] ∧
        (writeMany st inputs).1.number_of_buffered_events = 0 ∧
        (writeMany st inputs).2.length = 1) ∧
      (∀ k, (writeMany st (inputs.take k)).1.event_documents.length ≤ N + 1) := by
  intro N st inputs hN hfi hdocs hnum hlen
  have hacc : ∀ k, k ≤ N →
      (writeMany st (inputs.take k)).1.event_documents.length = k ∧
        (writeMany st (inputs.take k)).1.number_of_buffered_events = k ∧
        (writeMany st (inputs.take k)).1.flush_interval = N ∧
        (writeMany st (inputs.take k)).2 = [] := by
    intro k hk
    have hkl : (inputs.take k).length = k := by
      rw [List.length_take, hlen]
      omega
    have := writeMany_accumulate (inputs.take k) st (by omega)
    rw [hkl] at this
    rw [hdocs, hnum, hfi] at this
    simpa using this
  refine ⟨fun k hk => ⟨(hacc k hk).1, (hacc k hk).2.2.2⟩, ?_, ?_⟩
  · have hsplit : inputs = inputs.take N ++ inputs.drop N := by
      simp [List.take_append_drop]
    have hdlen : (inputs.drop N).length = 1 := by
      rw [List.length_drop, hlen]
      omega
    obtain ⟨x, hx⟩ := List.length_eq_one.mp hdlen
    obtain ⟨d, r⟩ := x
    obtain ⟨h1, h2, h3, h4⟩ := hacc N (Nat.le_refl N)
    set s1 := (writeMany st (inputs.take N)).1 with hs1
    have hflush := WriteFieldValues_flush s1 r d (by omega)
    obtain ⟨hf1, hf2, hf3, p, hf4⟩ := hflush
    have hfin : writeMany st inputs =
        ((writeMany s1 [(d, r)]).1,
          (writeMany st (inputs.take N)).2 ++ (writeMany s1 [(d, r)]).2) := by
      conv_lhs => rw [hsplit, hx]
      exact writeMany_append (inputs.take N) [(d, r)] st
    have hone : writeMany s1 [(d, r)] =
        ((WriteFieldValues s1 r d).1, (WriteFieldValues s1 r d).2.1.toList) := by
      simp [writeMany]
    rw [hfin, hone]
    refine ⟨by simpa using hf1, by simpa using hf2, ?_⟩
    simp [h4, hf4]
  · intro k
    by_cases hk : k ≤ N
    · have := (hacc k hk).1
      omega
    · have hk2 : inputs.length ≤ k := by omega
      rw [List.take_of_length_le hk2]
      have hsplit : inputs = inputs.take N ++ inputs.drop N := by
        simp [List.take_append_drop]
      have hdlen : (inputs.drop N).length = 1 := by
        rw [List.length_drop, hlen]
        omega
      obtain ⟨x, hx⟩ := List.length_eq_one.mp hdlen
      obtain ⟨d, r⟩ := x
      obtain ⟨h1, h2, h3, h4⟩ := hacc N (Nat.le_refl N)
      set s1 := (writeMany st (inputs.take N)).1 with hs1
      obtain ⟨hf1, hf2, hf3, p, hf4⟩ := WriteFieldValues_flush s1 r d (by omega)
      have hfin : writeMany st inputs =
          ((writeMany s1 [(d, r)]).1,
            (writeMany st (inputs.take N)).2 ++ (writeMany s1 [(d, r)]).2) := by
        conv_lhs => rw [hsplit, hx]
        exact writeMany_append (inputs.take N) [(d, r)] st
      have hone : writeMany s1 [(d, r)] =
          ((WriteFieldValues s1 r d).1, (WriteFieldValues s1 r d).2.1.toList) := by
        simp [writeMany]
      rw [hfin, hone]
      simp [hf1]

/-- Two-write input trace for the C1 witness: the second write's flush
outcome is a raised request exception, exhibiting the reset regardless of
the flush outcome. -/
def exampleInputs : List (Doc × HttpResult) :=
  [([("message", .vStr "one")], .response 200 ""),
   ([("message", .vStr "two")], .requestException "boom")]

theorem claim_C1_witness :
    1 ≤ 1 ∧
      ({ initState with flush_interval := 1 } : SinkState).flush_interval = 1 ∧
      ({ initState with flush_interval := 1 } : SinkState).event_documents = [] ∧
      ({ initState with flush_interval := 1 } : SinkState).number_of_buffered_events = 0 ∧
      exampleInputs.length = 1 + 1 ∧
      ((writeMany { initState with flush_interval := 1 } exampleInputs).1.event_documents = [] ∧
        (writeMany { initState with flush_interval := 1 } exampleInputs).1.number_of_buffered_events = 0 ∧
        (writeMany { initState with flush_interval := 1 } exampleInputs).2.length = 1) :=
  ⟨by decide, rfl, rfl, rfl, rfl,
    (claim_C1_flush_policy 1 { initState with flush_interval := 1 }
      exampleInputs (by decide) rfl rfl rfl rfl).2.1⟩

end FluentBitModel
